import Mathlib

/-!
Shallow embedding of `src/amazon_invoice_downloader/cli/__init__.py`
(the Amazon invoice downloader CLI) and proofs about its traversal,
extraction and acquisition control logic.

Python strings are modelled as Lean `String` restricted to the code
points the program actually manipulates; Python string methods
(`strip`, `lower`, `replace`, `split`, `startswith`, membership) are
re-implemented structurally on the underlying character lists so that
all definitions are executable and kernel-reducible.  `datetime`
values are modelled as `(year, month, day)` triples with the usual
lexicographic comparison, and `datetime.strptime` is modelled after
the regular expressions CPython `_strptime` compiles for the two
format strings that appear in the source (`"%B %d, %Y"` and
`"%Y%m%d"`).  Fallible Python code is modelled with `Except`:
`PyError.indexError` stands for `IndexError`, `PyError.valueError`
for `ValueError` (the error `datetime.strptime` raises).
-/

namespace AmazonInvoiceDownloader

/-- Errors of the Python runtime that the modelled code can raise. -/
inductive PyError
  | indexError
  | valueError
deriving DecidableEq, Repr

deriving instance DecidableEq for Except

/-! ### Python string primitives, re-implemented structurally -/

/-- Python `str.lower` on one character (ASCII range, which is all the
source compares). -/
def lowerChar (c : Char) : Char :=
  if 'A' ≤ c ∧ c ≤ 'Z' then Char.ofNat (c.toNat + 32) else c

/-- Characters Python `str.strip()` removes. -/
def isPySpace (c : Char) : Bool :=
  c = ' ' ∨ c = '\t' ∨ c = '\n' ∨ c = '\r' ∨ c = '\x0b' ∨ c = '\x0c'

/-- Python `str.strip()` on a character list. -/
def stripChars (l : List Char) : List Char :=
  ((l.dropWhile isPySpace).reverse.dropWhile isPySpace).reverse

/-- Python `str.strip()`. -/
def pyStrip (s : String) : String :=
  String.mk (stripChars s.data)

/-- Python `str.lower()`. -/
def pyLower (s : String) : String :=
  String.mk (s.data.map lowerChar)

/-- Whether `pat` is a prefix of `l` (used for Python `startswith`). -/
def isPrefixList : List Char → List Char → Bool
  | [], _ => true
  | _ :: _, [] => false
  | c :: cs, d :: ds => c = d && isPrefixList cs ds

/-- Python `a.startswith(b)`. -/
def pyStartswith (s pat : String) : Bool :=
  isPrefixList pat.data s.data

/-- Python `s.replace(c, "")` for a one-character pattern, which is the
only use of `replace` in the source (`"$"` and `","` removal). -/
def pyRemoveChar (s : String) (c : Char) : String :=
  String.mk (s.data.filter (fun d => d ≠ c))

/-- Whether `needle` occurs as a contiguous sublist of `hay`. -/
def isInfixList : List Char → List Char → Bool
  | needle, [] => needle.isEmpty
  | needle, c :: rest => isPrefixList needle (c :: rest) || isInfixList needle rest

/-- Python `needle in hay` on strings (substring containment). -/
def pyContains (hay needle : String) : Bool :=
  isInfixList needle.data hay.data

/-- Python `s.split(sep)` for a one-character separator. -/
def splitOnCharAux (sep : Char) : List Char → List Char → List String
  | [], acc => [String.mk acc.reverse]
  | c :: rest, acc =>
    if c = sep then String.mk acc.reverse :: splitOnCharAux sep rest []
    else splitOnCharAux sep rest (c :: acc)

/-- Python `s.split(sep)` for a one-character separator. -/
def pySplitOnChar (s : String) (sep : Char) : List String :=
  splitOnCharAux sep s.data []

/-! ### Dates (`datetime.datetime` restricted to year, month, day) -/

/-- A `datetime` value as the source uses it: only the date part is
ever non-zero (`strptime` with the formats `"%B %d, %Y"` and
`"%Y%m%d"` leaves hours, minutes and seconds at zero). -/
structure Date where
  year : Nat
  month : Nat
  day : Nat
deriving DecidableEq, Repr

/-- `datetime` comparison `a < b` (lexicographic on year, month, day). -/
def Date.ltb (a b : Date) : Bool :=
  if a.year < b.year then true
  else if b.year < a.year then false
  else if a.month < b.month then true
  else if b.month < a.month then false
  else decide (a.day < b.day)

/-- Gregorian leap-year rule, as `datetime` validates dates. -/
def isLeap (y : Nat) : Bool :=
  y % 4 = 0 && (y % 100 ≠ 0 || y % 400 = 0)

/-- Number of days of month `m` of year `y` (as `datetime` validates). -/
def daysInMonth (y m : Nat) : Nat :=
  if m = 2 then (if isLeap y then 29 else 28)
  else if m = 4 ∨ m = 6 ∨ m = 9 ∨ m = 11 then 30
  else 31

/-- A `(year, month, day)` triple `datetime` accepts. -/
def validDate (y m d : Nat) : Bool :=
  1 ≤ y && y ≤ 9999 && 1 ≤ m && m ≤ 12 && 1 ≤ d && d ≤ daysInMonth y m

/-- Numeric value of one decimal digit character. -/
def digitVal (c : Char) : Nat := c.toNat - '0'.toNat

/-- Whether `c` is an ASCII decimal digit. -/
def isDigitChar (c : Char) : Bool := '0' ≤ c && c ≤ '9'

/-- Value of a list of decimal digit characters. -/
def digitsVal (l : List Char) : Nat :=
  l.foldl (fun acc c => 10 * acc + digitVal c) 0

/-! ### `strptime` with format `"%Y%m%d"`

CPython `_strptime` compiles `%Y` to four digits, `%m` to
`1[0-2]|0[1-9]|[1-9]` and `%d` to `3[01]|[12]\d|0[1-9]|[1-9]`, tried
in that order with backtracking, and requires the whole input to be
consumed; the resulting triple is then validated by the `datetime`
constructor. -/

/-- The `%m` regex alternatives (`1[0-2]|0[1-9]|[1-9]`) applied to the
input, in alternation order: each hit is the parsed month together
with the remaining input. -/
def monthAlternatives : List Char → List (Nat × List Char)
  | c1 :: c2 :: rest =>
    (if c1 = '1' ∧ '0' ≤ c2 ∧ c2 ≤ '2' then [(10 + digitVal c2, rest)] else []) ++
    (if c1 = '0' ∧ '1' ≤ c2 ∧ c2 ≤ '9' then [(digitVal c2, rest)] else []) ++
    (if '1' ≤ c1 ∧ c1 ≤ '9' then [(digitVal c1, c2 :: rest)] else [])
  | [c1] => if '1' ≤ c1 ∧ c1 ≤ '9' then [(digitVal c1, [])] else []
  | [] => []

/-- The `%d` regex alternatives (`3[01]|[12]\d|0[1-9]|[1-9]`) applied
to the input, in alternation order. -/
def dayAlternatives : List Char → List (Nat × List Char)
  | c1 :: c2 :: rest =>
    (if c1 = '3' ∧ '0' ≤ c2 ∧ c2 ≤ '1' then [(30 + digitVal c2, rest)] else []) ++
    (if ('1' ≤ c1 ∧ c1 ≤ '2') ∧ '0' ≤ c2 ∧ c2 ≤ '9'
      then [(10 * digitVal c1 + digitVal c2, rest)] else []) ++
    (if c1 = '0' ∧ '1' ≤ c2 ∧ c2 ≤ '9' then [(digitVal c2, rest)] else []) ++
    (if '1' ≤ c1 ∧ c1 ≤ '9' then [(digitVal c1, c2 :: rest)] else [])
  | [c1] => if '1' ≤ c1 ∧ c1 ≤ '9' then [(digitVal c1, [])] else []
  | [] => []

/-- First day alternative after which `cont` accepts the rest
(regex backtracking through `%d`). -/
def firstDay (cont : List Char → Bool) : List (Nat × List Char) → Option Nat
  | [] => none
  | (d, rest) :: more => if cont rest then some d else firstDay cont more

/-- First month alternative from which `%d` followed by `cont`
succeeds (regex backtracking through `%m` then `%d`). -/
def firstMonthDay (cont : List Char → Bool) : List (Nat × List Char) → Option (Nat × Nat)
  | [] => none
  | (m, rest) :: more =>
    match firstDay cont (dayAlternatives rest) with
    | some d => some (m, d)
    | none => firstMonthDay cont more

/-- `datetime.strptime(s, "%Y%m%d")`: four year digits, then `%m`,
then `%d`, then end of input, then `datetime` validation. -/
def strptimeYmd (s : String) : Except PyError Date :=
  match s.data with
  | y1 :: y2 :: y3 :: y4 :: rest =>
    if isDigitChar y1 && isDigitChar y2 && isDigitChar y3 && isDigitChar y4 then
      let y := digitsVal [y1, y2, y3, y4]
      match firstMonthDay (fun l => l.isEmpty) (monthAlternatives rest) with
      | some (m, d) => if validDate y m d then .ok ⟨y, m, d⟩ else .error .valueError
      | none => .error .valueError
    else .error .valueError
  | _ => .error .valueError

/-! ### `strptime` with format `"%B %d, %Y"`

`%B` is an alternation of the twelve month names matched
case-insensitively, whitespace in the format matches one or more
whitespace characters, `","` is literal, and `%Y` is four digits. -/

/-- The English month names, in month order. -/
def monthNames : List String :=
  ["January", "February", "March", "April", "May", "June",
   "July", "August", "September", "October", "November", "December"]

/-- Case-insensitive prefix match returning the rest of the input. -/
def dropPrefixCI : List Char → List Char → Option (List Char)
  | [], l => some l
  | _ :: _, [] => none
  | p :: ps, c :: cs => if lowerChar p = lowerChar c then dropPrefixCI ps cs else none

/-- Match `%B` (a month name, case-insensitively): the month number
and the remaining input.  No month name is a prefix of another, so
trying the names in month order is faithful to the regex. -/
def matchMonthName (l : List Char) : Option (Nat × List Char) :=
  go monthNames 1 l
where
  go : List String → Nat → List Char → Option (Nat × List Char)
    | [], _, _ => none
    | n :: ns, i, l =>
      match dropPrefixCI n.data l with
      | some rest => some (i, rest)
      | none => go ns (i + 1) l

/-- Match `\s+` (one or more whitespace characters). -/
def dropSpaces1 : List Char → Option (List Char)
  | c :: rest => if isPySpace c then some (rest.dropWhile isPySpace) else none
  | [] => none

/-- After `%d` in `"%B %d, %Y"`: a literal comma, `\s+`, four year
digits, end of input.  Returns the parsed year when it matches. -/
def tailCommaYear (l : List Char) : Option Nat :=
  match l with
  | ',' :: rest =>
    match dropSpaces1 rest with
    | some (y1 :: y2 :: y3 :: y4 :: []) =>
      if isDigitChar y1 && isDigitChar y2 && isDigitChar y3 && isDigitChar y4 then
        some (digitsVal [y1, y2, y3, y4])
      else none
    | _ => none
  | _ => none

/-- `datetime.strptime(s, "%B %d, %Y")` (e.g. on `"June 1, 2022"`):
`%B`, `\s+`, `%d` with backtracking, `", "`, `%Y`, end of input, then
`datetime` validation. -/
def strptimeLong (s : String) : Except PyError Date :=
  match matchMonthName s.data with
  | none => .error .valueError
  | some (m, rest) =>
    match dropSpaces1 rest with
    | none => .error .valueError
    | some rest2 =>
      match (dayAlternatives rest2).findSome?
          (fun p => (tailCommaYear p.2).map (fun y => (p.1, y))) with
      | some (d, y) =>
        if validDate y m d then .ok ⟨y, m, d⟩ else .error .valueError
      | none => .error .valueError

/-! ### The outcome enum `ret` and the acquisition fallback chain -/

/-- The outcome enum of the source (`class ret(Enum)`). -/
inductive ret
  | SUCCESS
  | FAILURE
  | SKIPPED
deriving DecidableEq, Repr

/-- Why the `for method in download_method` loop stopped. -/
inductive StopReason
  | success
  | skipped
  | exhausted
deriving DecidableEq, Repr

/-- Behaviour of one configured download method on one order: it
either returns a `ret` outcome or raises. -/
abbrev MethodSpec := Except Unit ret

/-- The `for method in download_method` loop of `run` (source lines
408-417): each method is invoked at most once, in configured order;
`SUCCESS` and `SKIPPED` break the loop, `FAILURE` and a raised error
fall through to the next method; a raised error is caught by the
`except` clause and logged.  Returns how many methods were invoked
and why the loop stopped; the loop itself never raises. -/
def runChain : List MethodSpec → Nat × StopReason
  | [] => (0, .exhausted)
  | m :: rest =>
    match m with
    | .ok .SUCCESS => (1, .success)
    | .ok .SKIPPED => (1, .skipped)
    | .ok .FAILURE => ((runChain rest).1 + 1, (runChain rest).2)
    | .error _ => ((runChain rest).1 + 1, (runChain rest).2)

/-- The stop reason a breaking outcome produces. -/
def stopOf : ret → StopReason
  | .SUCCESS => .success
  | .SKIPPED => .skipped
  | .FAILURE => .exhausted

/-- A method that falls through to the next one: it returned
`FAILURE` or raised. -/
def fallsThrough (m : MethodSpec) : Prop :=
  m = .ok ret.FAILURE ∨ m = .error ()

instance (m : MethodSpec) : Decidable (fallsThrough m) := by
  unfold fallsThrough; infer_instance

/-! ### Order extraction (source lines 384-396 and `get_order_id`) -/

/-- `spans[i]`: Python indexing, raising `IndexError` out of range. -/
def spanIdx (l : List String) (i : Nat) : Except PyError String :=
  match l.get? i with
  | some s => .ok s
  | none => .error .indexError

/-- `get_order_id(spans)` (source lines 113-120): scan the spans for
one whose stripped text lowercases to something starting with
`"order #"` and return the next span's stripped text; `spans[i + 1]`
raises `IndexError` when the match is the last span.  Without a match
the sentinel `"unknown_order_id"` is returned. -/
def get_order_id : List String → Except PyError String
  | [] => .ok "unknown_order_id"
  | s :: rest =>
    if pyStartswith (pyLower (pyStrip s)) "order #" then
      match rest with
      | [] => .error .indexError
      | t :: _ => .ok (pyStrip t)
    else get_order_id rest

/-- Result of the per-order extraction prefix of the order loop. -/
inductive Extracted
  | cancelled
  | record (date : Date) (total : String) (orderid : String)
deriving DecidableEq, Repr

/-- The extraction prefix of the order loop body (source lines
384-394), in source order: the cancelled check on `spans[4]`, the
date parse of `spans[1]`, the total from `spans[3]` with `"$"` and
`","` removed, and `get_order_id`.  Any `IndexError` or `ValueError`
propagates: there is no handler around these lines. -/
def extractOrder (spans : List String) : Except PyError Extracted :=
  match spanIdx spans 4 with
  | .error e => .error e
  | .ok status =>
    if pyLower (pyStrip status) = "cancelled" then .ok .cancelled
    else
      match spanIdx spans 1 with
      | .error e => .error e
      | .ok dateText =>
        match strptimeLong dateText with
        | .error e => .error e
        | .ok date =>
          match spanIdx spans 3 with
          | .error e => .error e
          | .ok totalText =>
            match get_order_id spans with
            | .error e => .error e
            | .ok orderid =>
              .ok (.record date (pyRemoveChar (pyRemoveChar totalText '$') ',') orderid)

/-- `date.strftime("%Y-%m-%d")`: zero-padded ISO date. -/
def pad2 (n : Nat) : String :=
  if n < 10 then "0" ++ toString n else toString n

/-- Zero-pad a year to four digits, as `%Y` formats it. -/
def pad4 (n : Nat) : String :=
  if n < 10 then "000" ++ toString n
  else if n < 100 then "00" ++ toString n
  else if n < 1000 then "0" ++ toString n
  else toString n

/-- `date.strftime("%Y-%m-%d")` of source line 395. -/
def date_str (d : Date) : String :=
  pad4 d.year ++ "-" ++ pad2 d.month ++ "-" ++ pad2 d.day

/-- The f-string of source line 396:
`f"{target_dir}/{date_str}_{total}_amazon_{orderid}.pdf"`. -/
def file_name (target_dir ds total orderid : String) : String :=
  target_dir ++ "/" ++ ds ++ "_" ++ total ++ "_amazon_" ++ orderid ++ ".pdf"

/-! ### The order loop body (source lines 382-417) -/

/-- What the order loop body does after one order: go on with the
next order (`continue` or normal fall-through) or set `done = True`
and break out of the order and page loops. -/
inductive StepResult
  | nextOrder
  | endYear
deriving DecidableEq, Repr

/-- Observable actions of one order loop iteration, in order. -/
inductive Event
  | pathResolved (p : String)
  | existenceChecked (p : String) (present : Bool)
  | methodInvoked (i : Nat)
deriving DecidableEq, Repr

/-- The run configuration the order loop reads: the resolved date
window and the download directory. -/
structure Ctx where
  start_date : Date
  end_date : Date
  target_dir : String
deriving DecidableEq, Repr

/-- One iteration of the order loop (source lines 382-417) on the
span texts of one order card, against filesystem `fs` (the set of
existing paths), with `ms` the behaviour of the configured download
methods on this card.  Returns the loop control outcome, the updated
filesystem (a successful method wrote `file_name`), and the event
trace; an uncaught `IndexError`/`ValueError` from the extraction
lines propagates. -/
def processOrder (ctx : Ctx) (ms : List MethodSpec) (fs : List String)
    (spans : List String) : Except PyError (StepResult × List String × List Event) :=
  match extractOrder spans with
  | .error e => .error e
  | .ok .cancelled => .ok (.nextOrder, fs, [])
  | .ok (.record date total orderid) =>
    let fname := file_name ctx.target_dir (date_str date) total orderid
    if Date.ltb ctx.end_date date then
      .ok (.nextOrder, fs, [.pathResolved fname])
    else if Date.ltb date ctx.start_date then
      .ok (.endYear, fs, [.pathResolved fname])
    else if fs.contains fname then
      .ok (.nextOrder, fs, [.pathResolved fname, .existenceChecked fname true])
    else
      .ok (.nextOrder,
        (if (runChain ms).2 = .success then fname :: fs else fs),
        [.pathResolved fname, .existenceChecked fname false] ++
          (List.range (runChain ms).1).map Event.methodInvoked)

/-- The order loop over the cards of one result page: each card is a
span list; `mFor` gives the behaviour of the configured methods on
each card.  Returns the `done` flag, the filesystem, and how many
cards were processed (entered the loop body); an extraction error
propagates. -/
def runCards (ctx : Ctx) (mFor : List String → List MethodSpec) (fs : List String) :
    List (List String) → Except PyError (Bool × List String × Nat)
  | [] => .ok (false, fs, 0)
  | c :: rest =>
    match processOrder ctx (mFor c) fs c with
    | .error e => .error e
    | .ok (.endYear, fs', _) => .ok (true, fs', 1)
    | .ok (.nextOrder, fs', _) =>
      match runCards ctx mFor fs' rest with
      | .error e => .error e
      | .ok (d, fs'', n) => .ok (d, fs'', n + 1)

/-- The page loop of one year (source lines 364-417): pages are
served in order; after the last page the next-page click times out
and the loop breaks; `done = True` from the order loop ends the year
early.  Returns the filesystem and, per visited page, how many of its
cards were processed. -/
def runPages (ctx : Ctx) (mFor : List String → List MethodSpec) (fs : List String) :
    List (List (List String)) → Except PyError (List String × List Nat)
  | [] => .ok (fs, [])
  | p :: ps =>
    match runCards ctx mFor fs p with
    | .error e => .error e
    | .ok (true, fs', n) => .ok (fs', [n])
    | .ok (false, fs', n) =>
      match runPages ctx mFor fs' ps with
      | .error e => .error e
      | .ok (fs'', ns) => .ok (fs'', n :: ns)

/-- The year loop (source lines 358-417): each selected year serves
its own page list; the filesystem is threaded through.  Returns the
final filesystem and each year's per-page processed counts. -/
def runYears (ctx : Ctx) (mFor : List String → List MethodSpec) (fs : List String) :
    List (List (List (List String))) → Except PyError (List String × List (List Nat))
  | [] => .ok (fs, [])
  | y :: ys =>
    match runPages ctx mFor fs y with
    | .error e => .error e
    | .ok (fs', t) =>
      match runYears ctx mFor fs' ys with
      | .error e => .error e
      | .ok (fs'', ts) => .ok (fs'', t :: ts)

/-- The traversal trace of one year run on its own (its full
sequence, independently of any other year): the per-page processed
counts `runPages` yields starting from an empty filesystem. -/
def yearTrace (ctx : Ctx) (mFor : List String → List MethodSpec)
    (y : List (List (List String))) : Except PyError (List Nat) :=
  match runPages ctx mFor [] y with
  | .error e => .error e
  | .ok (_, t) => .ok t

/-! ### Date window resolution (source lines 244-253) -/

/-- The three mutually exclusive date window argument shapes of
`run`: an explicit `--date-range`, an explicit `--year`, or neither
(the current year). -/
inductive RangeArgs
  | dateRange (s : String)
  | yearArg (y : String)
  | noArg (currentYear : Nat)
deriving DecidableEq, Repr

/-- Source lines 244-253: split a `--date-range` on `"-"` (unpacking
into exactly two parts, else `ValueError`), or synthesize
`YYYY0101`/`YYYY1231` from the year, then `strptime` both parts with
`"%Y%m%d"`.  There is no check that the start is before the end. -/
def resolveDateWindow : RangeArgs → Except PyError (Date × Date)
  | .dateRange s =>
    match pySplitOnChar s '-' with
    | [a, b] =>
      (match strptimeYmd a with
      | .error e => .error e
      | .ok sd =>
        match strptimeYmd b with
        | .error e => .error e
        | .ok ed => .ok (sd, ed))
    | _ => .error .valueError
  | .yearArg y =>
    (match strptimeYmd (y ++ "0101") with
    | .error e => .error e
    | .ok sd =>
      match strptimeYmd (y ++ "1231") with
      | .error e => .error e
      | .ok ed => .ok (sd, ed))
  | .noArg cy =>
    (match strptimeYmd (toString cy ++ "0101") with
    | .error e => .error e
    | .ok sd =>
      match strptimeYmd (toString cy ++ "1231") with
      | .error e => .error e
      | .ok ed => .ok (sd, ed))

/-! ### Year selection (source lines 350-355) -/

/-- Model of Python `str.isnumeric()` on the ASCII strings the year
filter sees. -/
def isNumericLabel (s : String) : Bool :=
  !s.data.isEmpty && s.data.all isDigitChar

/-- `int(label)` for a numeric label. -/
def labelToNat (s : String) : Nat := digitsVal s.data

/-- Code-point comparison of two characters (how Python compares the
characters of two strings). -/
def charLtB (a b : Char) : Bool := decide (a < b)

/-- Lexicographic comparison of two character lists (how Python
compares strings). -/
def listLtB : List Char → List Char → Bool
  | [], [] => false
  | [], _ :: _ => true
  | _ :: _, [] => false
  | a :: as, b :: bs =>
    if charLtB a b then true
    else if charLtB b a then false
    else listLtB as bs

/-- Python string `<` (lexicographic on the characters). -/
def strLtB (a b : String) : Bool := listLtB a.data b.data

/-- Python string `<=`: not `b < a`. -/
def strLeB (a b : String) : Bool := !(strLtB b a)

/-- One step of the stable descending insertion `list.sort(reverse=True)`
performs: insert `x` (an earlier list element) before the first
element that is `<=` it as a string. -/
def insertDescStr (x : String) : List String → List String
  | [] => [x]
  | y :: ys => if strLeB y x then x :: y :: ys else y :: insertDescStr x ys

/-- Python `list.sort(reverse=True)` on strings: stable descending
sort in LEXICOGRAPHIC string order (Python compares the label
strings, not their numeric values). -/
def sortDescStr : List String → List String
  | [] => []
  | x :: xs => insertDescStr x (sortDescStr xs)

/-- Source lines 350-355: keep the numeric labels, keep those whose
`int` value is between `start_date.year` and `end_date.year`
inclusively, then `years.sort(reverse=True)`. -/
def yearSelector (labels : List String) (sd ed : Date) : List String :=
  sortDescStr ((labels.filter isNumericLabel).filter
    (fun y => decide (sd.year ≤ labelToNat y ∧ labelToNat y ≤ ed.year)))

/-! ### The two download methods (source lines 159-216)

The browser collaborator is modelled as an environment giving the
result of each effectful step: `.ok` with the step's value, or
`.error ()` when the step raises (a Playwright timeout, a navigation
failure, a failed write, ...).  What the claims observe is the trace
of secondary pages (`context.new_page()`) opened and closed. -/

/-- Opening and closing of a secondary page. -/
inductive SurfEvent
  | opened
  | closed
deriving DecidableEq, Repr

/-- The response `invoice_page.request.get(link)` yields. -/
structure HttpResponse where
  ok : Bool
  contentType : Option String
deriving DecidableEq, Repr

/-- Environment for one `download_invoice` call. -/
structure InvoiceEnv where
  clickStep : Except Unit Unit
  popoverStep : Except Unit Unit
  hrefStep : Except Unit String
  getStep : Except Unit HttpResponse
  writeStep : Except Unit Unit
deriving DecidableEq, Repr

/-- `download_invoice` (source lines 159-181): click the invoice link,
wait for the popover, read the `"Invoice"` href, open a new page,
fetch the link; on a non-PDF content type or a bad status close the
page and return `FAILURE`, otherwise write the body, close the page,
and return `SUCCESS`.  There is no `try`/`finally`: a step that
raises after `context.new_page()` propagates without closing the
page. -/
def download_invoice (env : InvoiceEnv) : Except Unit ret × List SurfEvent :=
  match env.clickStep with
  | .error e => (.error e, [])
  | .ok _ =>
    match env.popoverStep with
    | .error e => (.error e, [])
    | .ok _ =>
      match env.hrefStep with
      | .error e => (.error e, [])
      | .ok _href =>
        match env.getStep with
        | .error e => (.error e, [.opened])
        | .ok resp =>
          let ct := pyLower (resp.contentType.getD "")
          if !pyContains ct "pdf" || !resp.ok then
            (.ok ret.FAILURE, [.opened, .closed])
          else
            match env.writeStep with
            | .error e => (.error e, [.opened])
            | .ok _ => (.ok ret.SUCCESS, [.opened, .closed])

/-- The module-level `cards = ['all']` acceptance set. -/
def cards : List String := ["all"]

/-- Environment for one `download_summary` call. -/
structure SummaryEnv where
  clickStep : Except Unit Unit
  popoverStep : Except Unit Unit
  hrefStep : Except Unit String
  gotoStep : Except Unit Unit
  loadStep : Except Unit Unit
  lastFour : String
  pdfStep : Except Unit Unit
deriving DecidableEq, Repr

/-- `download_summary` (source lines 184-216): click the invoice link,
wait for the popover, read the `"Printable Order Summary"` href, open
a new page, navigate to it and wait for load; `last_four` starts as
`'all'` and `get_last_four` is only consulted when `'all'` is not in
`cards`; if `last_four` is in `cards` render the page to PDF, close
and return `SUCCESS`, else close and return `SKIPPED`.  As in
`download_invoice`, a raised step after `context.new_page()`
propagates without closing the page. -/
def download_summary (env : SummaryEnv) : Except Unit ret × List SurfEvent :=
  match env.clickStep with
  | .error e => (.error e, [])
  | .ok _ =>
    match env.popoverStep with
    | .error e => (.error e, [])
    | .ok _ =>
      match env.hrefStep with
      | .error e => (.error e, [])
      | .ok _href =>
        match env.gotoStep with
        | .error e => (.error e, [.opened])
        | .ok _ =>
          match env.loadStep with
          | .error e => (.error e, [.opened])
          | .ok _ =>
            let lastFour0 := "all"
            let lastFour := if !cards.contains lastFour0 then env.lastFour else lastFour0
            if cards.contains lastFour then
              match env.pdfStep with
              | .error e => (.error e, [.opened])
              | .ok _ => (.ok ret.SUCCESS, [.opened, .closed])
            else
              (.ok ret.SKIPPED, [.opened, .closed])

/-! ### Derived views used in statements -/

/-- Bump the processed-card count of a `runCards` result by one (the
shape `runCards` takes after one more processed, non-terminating
card). -/
def bumpProcessed (r : Except PyError (Bool × List String × Nat)) :
    Except PyError (Bool × List String × Nat) :=
  match r with
  | .error e => .error e
  | .ok (d, fs, n) => .ok (d, fs, n + 1)

/-- The loop-control component of a `processOrder` result. -/
def resultOf (r : Except PyError (StepResult × List String × List Event)) :
    Except PyError StepResult :=
  r.map (fun x => x.1)

/-- The `done` flag and processed count of a `runCards` result. -/
def statOf (r : Except PyError (Bool × List String × Nat)) :
    Except PyError (Bool × Nat) :=
  r.map (fun x => (x.1, x.2.2))

/-- The per-page processed counts of a `runPages` result. -/
def traceOf (r : Except PyError (List String × List Nat)) :
    Except PyError (List Nat) :=
  r.map (fun x => x.2)

/-- The standalone traces of a list of years, each run on its own
(each year separately scheduled, on its own full sequence). -/
def yearTraces (ctx : Ctx) (mFor : List String → List MethodSpec) :
    List (List (List (List String))) → Except PyError (List (List Nat))
  | [] => .ok []
  | y :: ys =>
    match yearTrace ctx mFor y with
    | .error e => .error e
    | .ok t =>
      match yearTraces ctx mFor ys with
      | .error e => .error e
      | .ok ts => .ok (t :: ts)

/-! ### Concrete fixtures for witnesses and counterexamples -/

/-- A window covering 2022 with download directory `downloads`. -/
def wCtx : Ctx := ⟨⟨2022, 1, 1⟩, ⟨2022, 12, 31⟩, "downloads"⟩

/-- Span texts of a normal 2022 order card. -/
def wGood : List String :=
  ["Order placed", "June 1, 2022", "Total", "$10.00", "Shipped",
   "Order #", " 123-4567890-1234567 "]

/-- Span texts of an order dated after the window's end. -/
def wLate : List String :=
  ["Order placed", "March 1, 2023", "Total", "$8.00", "Shipped", "Order #", "B"]

/-- Span texts of an order dated before the window's start. -/
def wOld : List String :=
  ["Order placed", "December 20, 2021", "Total", "$5.00", "Shipped", "Order #", "C"]

/-- Span texts of an order card whose date does not parse. -/
def wBad : List String :=
  ["Order placed", "NotADate", "Total", "$7.00", "Shipped"]

/-- A method chain: first fails, second raises, third succeeds. -/
def wMethods : List String → List MethodSpec :=
  fun _ => [.ok ret.FAILURE, .error (), .ok ret.SUCCESS]

/-- A method chain in which every method raises. -/
def wRaise : List String → List MethodSpec :=
  fun _ => [.error (), .error ()]

/-! ## Helper lemmas -/

theorem lowerChar_of_pySpace {c : Char} (h : isPySpace c = true) : lowerChar c = c := by
  unfold isPySpace at h
  have h' := of_decide_eq_true h
  unfold lowerChar
  rcases h' with h1 | h1 | h1 | h1 | h1 | h1 <;> subst h1 <;> decide

theorem not_pySpace_of_lowerChar {c d : Char} (hlc : lowerChar c = d)
    (hd : isPySpace d = false) : isPySpace c = false := by
  cases hsp : isPySpace c with
  | false => rfl
  | true =>
    rw [lowerChar_of_pySpace hsp] at hlc
    subst hlc
    rw [hsp] at hd
    cases hd

theorem stripChars_eq_self {l : List Char}
    (hh : ∀ c, l.head? = some c → isPySpace c = false)
    (hl : ∀ c, l.reverse.head? = some c → isPySpace c = false) :
    stripChars l = l := by
  have h1 : l.dropWhile isPySpace = l := by
    cases hcl : l with
    | nil => rfl
    | cons c r =>
      have hc : isPySpace c = false := hh c (by rw [hcl]; rfl)
      simp [List.dropWhile_cons, hc]
  have h2 : l.reverse.dropWhile isPySpace = l.reverse := by
    cases hrev : l.reverse with
    | nil => rfl
    | cons d rr =>
      have hd : isPySpace d = false := hl d (by rw [hrev]; rfl)
      simp [List.dropWhile_cons, hd]
  unfold stripChars
  rw [h1, h2, List.reverse_reverse]

theorem pyStrip_of_pyLower_cancelled {s : String}
    (h : pyLower s = "cancelled") : pyStrip s = s := by
  have hdata : s.data.map lowerChar = "cancelled".data := congrArg String.data h
  have hstrip : stripChars s.data = s.data := by
    apply stripChars_eq_self
    · intro c hc
      obtain ⟨r, hsd⟩ : ∃ r, s.data = c :: r := by
        cases hsd : s.data with
        | nil => rw [hsd] at hc; cases hc
        | cons a r =>
          rw [hsd] at hc
          injection hc with h1
          exact ⟨r, by rw [h1]⟩
      have hlc : lowerChar c = 'c' := by
        rw [hsd] at hdata
        rw [show "cancelled".data = ['c', 'a', 'n', 'c', 'e', 'l', 'l', 'e', 'd'] from rfl]
          at hdata
        simp only [List.map_cons] at hdata
        injection hdata with h1 _
      exact not_pySpace_of_lowerChar hlc (by decide)
    · intro c hc
      have hdatar : s.data.reverse.map lowerChar = "cancelled".data.reverse := by
        rw [List.map_reverse, hdata]
      obtain ⟨r, hsd⟩ : ∃ r, s.data.reverse = c :: r := by
        cases hsd : s.data.reverse with
        | nil => rw [hsd] at hc; cases hc
        | cons a r =>
          rw [hsd] at hc
          injection hc with h1
          exact ⟨r, by rw [h1]⟩
      have hlc : lowerChar c = 'd' := by
        rw [hsd] at hdatar
        rw [show "cancelled".data.reverse = ['d', 'e', 'l', 'l', 'e', 'c', 'n', 'a', 'c']
          from rfl] at hdatar
        simp only [List.map_cons] at hdatar
        injection hdatar with h1 _
      exact not_pySpace_of_lowerChar hlc (by decide)
  show String.mk (stripChars s.data) = s
  rw [hstrip]

theorem listLtB_iff : ∀ l₁ l₂ : List Char, listLtB l₁ l₂ = true ↔ l₁ < l₂ := by
  intro l₁
  induction l₁ with
  | nil =>
    intro l₂
    cases l₂ with
    | nil =>
      constructor
      · intro h; cases h
      · intro h; cases h
    | cons b bs =>
      constructor
      · intro _; exact List.Lex.nil
      · intro _; rfl
  | cons a as ih =>
    intro l₂
    cases l₂ with
    | nil =>
      constructor
      · intro h; cases h
      · intro h; cases h
    | cons b bs =>
      unfold listLtB
      by_cases hab : charLtB a b = true
      · have hab' : a < b := of_decide_eq_true hab
        simp only [hab, if_true]
        constructor
        · intro _; exact List.Lex.rel hab'
        · intro _; trivial
      · have hab' : ¬a < b := fun hc => hab (decide_eq_true hc)
        simp only [hab, Bool.false_eq_true, if_false]
        by_cases hba : charLtB b a = true
        · have hba' : b < a := of_decide_eq_true hba
          simp only [hba, if_true]
          constructor
          · intro h; cases h
          · intro h
            cases h with
            | cons h1 => exact absurd hba' (lt_irrefl a)
            | rel h1 => exact absurd h1 hab'
        · have hba' : ¬b < a := fun hc => hba (decide_eq_true hc)
          have heq : a = b := le_antisymm (le_of_not_lt hba') (le_of_not_lt hab')
          subst heq
          simp only [hba, Bool.false_eq_true, if_false]
          constructor
          · intro h; exact List.Lex.cons ((ih bs).mp h)
          · intro h
            cases h with
            | cons h1 => exact (ih bs).mpr h1
            | rel h1 => exact absurd h1 hab'

theorem strLtB_iff (a b : String) : strLtB a b = true ↔ a < b := by
  rw [String.lt_iff_toList_lt]
  exact listLtB_iff a.data b.data

theorem strLeB_iff (a b : String) : strLeB a b = true ↔ a ≤ b := by
  unfold strLeB
  rw [Bool.not_eq_true']
  constructor
  · intro h
    have : ¬(strLtB b a = true) := by rw [h]; exact Bool.false_ne_true
    rw [strLtB_iff] at this
    exact not_lt.mp this
  · intro h
    have : ¬(strLtB b a = true) := by rw [strLtB_iff]; exact not_lt.mpr h
    exact Bool.not_eq_true (strLtB b a) ▸ this

theorem insertDescStr_perm (x : String) (l : List String) :
    List.Perm (insertDescStr x l) (x :: l) := by
  induction l with
  | nil => rfl
  | cons y ys ih =>
    unfold insertDescStr
    by_cases h : strLeB y x = true
    · simp [h]
    · simp only [h, Bool.false_eq_true, if_false]
      exact (ih.cons y).trans (List.Perm.swap x y ys)

theorem insertDescStr_sorted (x : String) {l : List String}
    (hs : l.Sorted (fun a b => b ≤ a)) :
    (insertDescStr x l).Sorted (fun a b => b ≤ a) := by
  induction l with
  | nil => simp [insertDescStr]
  | cons y ys ih =>
    rw [List.sorted_cons] at hs
    obtain ⟨hy, hys⟩ := hs
    unfold insertDescStr
    by_cases h : strLeB y x = true
    · have hyx : y ≤ x := (strLeB_iff y x).mp h
      simp only [h, if_true]
      rw [List.sorted_cons]
      refine ⟨?_, List.sorted_cons.mpr ⟨hy, hys⟩⟩
      intro b hb
      rcases List.mem_cons.mp hb with hb | hb
      · exact hb ▸ hyx
      · exact le_trans (hy b hb) hyx
    · have hxy : x ≤ y := le_of_not_le (fun hc => h ((strLeB_iff y x).mpr hc))
      simp only [h, Bool.false_eq_true, if_false]
      rw [List.sorted_cons]
      refine ⟨?_, ih hys⟩
      intro b hb
      have hb' : b ∈ x :: ys := (insertDescStr_perm x ys).mem_iff.mp hb
      rcases List.mem_cons.mp hb' with hb' | hb'
      · exact hb' ▸ hxy
      · exact hy b hb'

theorem sortDescStr_perm (l : List String) : List.Perm (sortDescStr l) l := by
  induction l with
  | nil => rfl
  | cons x xs ih =>
    unfold sortDescStr
    exact (insertDescStr_perm x (sortDescStr xs)).trans (ih.cons x)

theorem sortDescStr_sorted (l : List String) :
    (sortDescStr l).Sorted (fun a b => b ≤ a) := by
  induction l with
  | nil => simp [sortDescStr]
  | cons x xs ih => exact insertDescStr_sorted x ih

theorem runChain_stop_at (r : ret) (hr : r = ret.SUCCESS ∨ r = ret.SKIPPED) :
    ∀ (i : Nat) (ms : List MethodSpec),
      (∀ m ∈ ms.take i, fallsThrough m) →
      ms.get? i = some (.ok r) → runChain ms = (i + 1, stopOf r) := by
  intro i
  induction i with
  | zero =>
    intro ms hpre hi
    cases ms with
    | nil => cases hi
    | cons m rest =>
      have hm : m = .ok r := by injection hi
      subst hm
      rcases hr with h | h <;> subst h <;> rfl
  | succ i ih =>
    intro ms hpre hi
    cases ms with
    | nil => cases hi
    | cons m rest =>
      have hi' : rest.get? i = some (.ok r) := hi
      have hrest := ih rest
        (fun m' hm' => hpre m'
          (by rw [List.take_succ_cons]; exact List.mem_cons_of_mem m hm')) hi'
      have hm : fallsThrough m := hpre m
        (by rw [List.take_succ_cons]; exact List.mem_cons_self m _)
      rcases hm with hm | hm <;> subst hm <;> simp [runChain, hrest]

theorem runChain_exhausted : ∀ ms : List MethodSpec,
    (∀ m ∈ ms, fallsThrough m) → runChain ms = (ms.length, .exhausted) := by
  intro ms
  induction ms with
  | nil => intro _; rfl
  | cons m rest ih =>
    intro h
    have hrest := ih (fun m' hm' => h m' (List.mem_cons_of_mem m hm'))
    have hm : fallsThrough m := h m (List.mem_cons_self m rest)
    rcases hm with hm | hm <;> subst hm <;> simp [runChain, hrest]

theorem resultOf_processOrder_fs (ctx : Ctx) (ms : List MethodSpec)
    (fs1 fs2 : List String) (spans : List String) :
    resultOf (processOrder ctx ms fs1 spans) = resultOf (processOrder ctx ms fs2 spans) := by
  unfold processOrder
  cases extractOrder spans with
  | error e => rfl
  | ok ex =>
    cases ex with
    | cancelled => rfl
    | record d t oid =>
      by_cases h1 : Date.ltb ctx.end_date d = true
      · simp [h1, resultOf, Except.map]
      · by_cases h2 : Date.ltb d ctx.start_date = true
        · simp [h1, h2, resultOf, Except.map]
        · simp only [h1, h2, Bool.false_eq_true, if_false]
          by_cases h3 : file_name ctx.target_dir (date_str d) t oid ∈ fs1 <;>
            by_cases h4 : file_name ctx.target_dir (date_str d) t oid ∈ fs2 <;>
            simp [h3, h4, resultOf, Except.map]

theorem statOf_runCards_fs (ctx : Ctx) (mFor : List String → List MethodSpec) :
    ∀ (cards : List (List String)) (fs1 fs2 : List String),
      statOf (runCards ctx mFor fs1 cards) = statOf (runCards ctx mFor fs2 cards) := by
  intro cards
  induction cards with
  | nil => intro fs1 fs2; rfl
  | cons c rest ih =>
    intro fs1 fs2
    have h := resultOf_processOrder_fs ctx (mFor c) fs1 fs2 c
    unfold runCards
    cases hp1 : processOrder ctx (mFor c) fs1 c with
    | error e =>
      cases hp2 : processOrder ctx (mFor c) fs2 c with
      | error e2 =>
        rw [hp1, hp2] at h
        simp [resultOf, Except.map] at h
        subst h
        rfl
      | ok x2 =>
        rw [hp1, hp2] at h
        simp [resultOf, Except.map] at h
    | ok x1 =>
      cases hp2 : processOrder ctx (mFor c) fs2 c with
      | error e2 =>
        rw [hp1, hp2] at h
        simp [resultOf, Except.map] at h
      | ok x2 =>
        obtain ⟨r1, fs1', ev1⟩ := x1
        obtain ⟨r2, fs2', ev2⟩ := x2
        rw [hp1, hp2] at h
        simp [resultOf, Except.map] at h
        subst h
        cases r1 with
        | endYear => rfl
        | nextOrder =>
          have hrec := ih fs1' fs2'
          cases hq1 : runCards ctx mFor fs1' rest with
          | error e =>
            cases hq2 : runCards ctx mFor fs2' rest with
            | error e2 =>
              rw [hq1, hq2] at hrec
              simp [statOf, Except.map] at hrec
              subst hrec
              simp [statOf, Except.map, hq1, hq2]
            | ok y2 =>
              rw [hq1, hq2] at hrec
              simp [statOf, Except.map] at hrec
          | ok y1 =>
            cases hq2 : runCards ctx mFor fs2' rest with
            | error e2 =>
              rw [hq1, hq2] at hrec
              simp [statOf, Except.map] at hrec
            | ok y2 =>
              obtain ⟨d1, g1, n1⟩ := y1
              obtain ⟨d2, g2, n2⟩ := y2
              rw [hq1, hq2] at hrec
              simp [statOf, Except.map] at hrec
              obtain ⟨hd, hn⟩ := hrec
              subst hd
              subst hn
              simp [statOf, Except.map, hq1, hq2]

theorem traceOf_runPages_fs (ctx : Ctx) (mFor : List String → List MethodSpec) :
    ∀ (pages : List (List (List String))) (fs1 fs2 : List String),
      traceOf (runPages ctx mFor fs1 pages) = traceOf (runPages ctx mFor fs2 pages) := by
  intro pages
  induction pages with
  | nil => intro fs1 fs2; rfl
  | cons p ps ih =>
    intro fs1 fs2
    have h := statOf_runCards_fs ctx mFor p fs1 fs2
    unfold runPages
    cases hp1 : runCards ctx mFor fs1 p with
    | error e =>
      cases hp2 : runCards ctx mFor fs2 p with
      | error e2 =>
        rw [hp1, hp2] at h
        simp [statOf, Except.map] at h
        subst h
        rfl
      | ok x2 =>
        rw [hp1, hp2] at h
        simp [statOf, Except.map] at h
    | ok x1 =>
      cases hp2 : runCards ctx mFor fs2 p with
      | error e2 =>
        rw [hp1, hp2] at h
        simp [statOf, Except.map] at h
      | ok x2 =>
        obtain ⟨d1, g1, n1⟩ := x1
        obtain ⟨d2, g2, n2⟩ := x2
        rw [hp1, hp2] at h
        simp [statOf, Except.map] at h
        obtain ⟨hd, hn⟩ := h
        subst hd
        subst hn
        cases d1 with
        | true => rfl
        | false =>
          have hrec := ih g1 g2
          cases hq1 : runPages ctx mFor g1 ps with
          | error e =>
            cases hq2 : runPages ctx mFor g2 ps with
            | error e2 =>
              rw [hq1, hq2] at hrec
              simp [traceOf, Except.map] at hrec
              subst hrec
              simp [traceOf, Except.map, hq1, hq2]
            | ok y2 =>
              rw [hq1, hq2] at hrec
              simp [traceOf, Except.map] at hrec
          | ok y1 =>
            cases hq2 : runPages ctx mFor g2 ps with
            | error e2 =>
              rw [hq1, hq2] at hrec
              simp [traceOf, Except.map] at hrec
            | ok y2 =>
              obtain ⟨f1, t1⟩ := y1
              obtain ⟨f2, t2⟩ := y2
              rw [hq1, hq2] at hrec
              simp [traceOf, Except.map] at hrec
              subst hrec
              simp [traceOf, Except.map, hq1, hq2]

theorem runYears_eq_yearTraces (ctx : Ctx) (mFor : List String → List MethodSpec) :
    ∀ (ys : List (List (List (List String)))) (fs fsr : List String)
      (ts : List (List Nat)),
      runYears ctx mFor fs ys = .ok (fsr, ts) → yearTraces ctx mFor ys = .ok ts := by
  intro ys
  induction ys with
  | nil =>
    intro fs fsr ts h
    unfold runYears at h
    injection h with h'
    injection h' with _ h2
    rw [← h2]
    rfl
  | cons y ys ih =>
    intro fs fsr ts h
    unfold runYears at h
    cases hp : runPages ctx mFor fs y with
    | error e => rw [hp] at h; cases h
    | ok p1 =>
      obtain ⟨fs1, t1⟩ := p1
      rw [hp] at h
      simp only [] at h
      cases hr : runYears ctx mFor fs1 ys with
      | error e => rw [hr] at h; cases h
      | ok p2 =>
        obtain ⟨fs2, ts2⟩ := p2
        rw [hr] at h
        injection h with h'
        injection h' with _ h2
        have htr : traceOf (runPages ctx mFor [] y) = .ok t1 := by
          rw [traceOf_runPages_fs ctx mFor y [] fs, hp]
          rfl
        unfold yearTraces yearTrace
        cases hq : runPages ctx mFor [] y with
        | error e => rw [hq] at htr; cases htr
        | ok q =>
          obtain ⟨f0, t0⟩ := q
          rw [hq] at htr
          simp [traceOf, Except.map] at htr
          subst htr
          rw [ih fs1 fs2 ts2 hr, ← h2]

theorem processOrder_record (ctx : Ctx) (ms : List MethodSpec) (fs : List String)
    (spans : List String) (d : Date) (t oid : String)
    (hex : extractOrder spans = .ok (.record d t oid)) :
    processOrder ctx ms fs spans =
      (if Date.ltb ctx.end_date d then
        .ok (.nextOrder, fs, [.pathResolved (file_name ctx.target_dir (date_str d) t oid)])
      else if Date.ltb d ctx.start_date then
        .ok (.endYear, fs, [.pathResolved (file_name ctx.target_dir (date_str d) t oid)])
      else if fs.contains (file_name ctx.target_dir (date_str d) t oid) then
        .ok (.nextOrder, fs,
          [.pathResolved (file_name ctx.target_dir (date_str d) t oid),
           .existenceChecked (file_name ctx.target_dir (date_str d) t oid) true])
      else
        .ok (.nextOrder,
          (if (runChain ms).2 = .success
            then file_name ctx.target_dir (date_str d) t oid :: fs else fs),
          [.pathResolved (file_name ctx.target_dir (date_str d) t oid),
           .existenceChecked (file_name ctx.target_dir (date_str d) t oid) false] ++
            (List.range (runChain ms).1).map Event.methodInvoked)) := by
  unfold processOrder
  rw [hex]

theorem runCards_cons_next {ctx : Ctx} {mFor : List String → List MethodSpec}
    {fs : List String} {c : List String} (rest : List (List String))
    {fs' : List String} {ev : List Event}
    (h : processOrder ctx (mFor c) fs c = .ok (.nextOrder, fs', ev)) :
    runCards ctx mFor fs (c :: rest) = bumpProcessed (runCards ctx mFor fs' rest) := by
  rw [show runCards ctx mFor fs (c :: rest) =
      (match processOrder ctx (mFor c) fs c with
      | .error e => .error e
      | .ok (.endYear, g, _) => .ok (true, g, 1)
      | .ok (.nextOrder, g, _) => bumpProcessed (runCards ctx mFor g rest)) from rfl, h]

theorem runCards_cons_end {ctx : Ctx} {mFor : List String → List MethodSpec}
    {fs : List String} {c : List String} (rest : List (List String))
    {fs' : List String} {ev : List Event}
    (h : processOrder ctx (mFor c) fs c = .ok (.endYear, fs', ev)) :
    runCards ctx mFor fs (c :: rest) = .ok (true, fs', 1) := by
  unfold runCards
  rw [h]

theorem runCards_cons_error {ctx : Ctx} {mFor : List String → List MethodSpec}
    {fs : List String} {c : List String} (rest : List (List String)) {e : PyError}
    (h : processOrder ctx (mFor c) fs c = .error e) :
    runCards ctx mFor fs (c :: rest) = .error e := by
  unfold runCards
  rw [h]

theorem runPages_cons_done {ctx : Ctx} {mFor : List String → List MethodSpec}
    {fs : List String} {p : List (List String)} (ps : List (List (List String)))
    {fs' : List String} {n : Nat}
    (h : runCards ctx mFor fs p = .ok (true, fs', n)) :
    runPages ctx mFor fs (p :: ps) = .ok (fs', [n]) := by
  unfold runPages
  rw [h]

theorem runPages_cons_error {ctx : Ctx} {mFor : List String → List MethodSpec}
    {fs : List String} {p : List (List String)} (ps : List (List (List String)))
    {e : PyError} (h : runCards ctx mFor fs p = .error e) :
    runPages ctx mFor fs (p :: ps) = .error e := by
  unfold runPages
  rw [h]

theorem runYears_cons_error {ctx : Ctx} {mFor : List String → List MethodSpec}
    {fs : List String} {y : List (List (List String))}
    (ys : List (List (List (List String)))) {e : PyError}
    (h : runPages ctx mFor fs y = .error e) :
    runYears ctx mFor fs (y :: ys) = .error e := by
  unfold runYears
  rw [h]

/-! ## Claims -/

/-- C10: for every fragment sequence given to `get_order_id`, if no
fragment's stripped text starts with `"order #"` case-insensitively
the sentinel `"unknown_order_id"` is returned; and if the first such
fragment is the last element of the sequence, the access to the
following fragment is out of bounds and the function raises an
`IndexError` instead of returning the sentinel or an id. -/
theorem c10_order_id_resolution (spans : List String) :
    ((∀ s ∈ spans, pyStartswith (pyLower (pyStrip s)) "order #" = false) →
      get_order_id spans = .ok "unknown_order_id") ∧
    (∀ pre lastSpan, spans = pre ++ [lastSpan] →
      (∀ s ∈ pre, pyStartswith (pyLower (pyStrip s)) "order #" = false) →
      pyStartswith (pyLower (pyStrip lastSpan)) "order #" = true →
      get_order_id spans = .error .indexError) := by
  induction spans with
  | nil =>
    constructor
    · intro _; rfl
    · intro pre lastSpan h
      cases pre <;> simp at h
  | cons s rest ih =>
    constructor
    · intro h
      have hs := h s (List.mem_cons_self s rest)
      unfold get_order_id
      rw [hs]
      simp only [Bool.false_eq_true, if_false]
      exact ih.1 (fun x hx => h x (List.mem_cons_of_mem s hx))
    · intro pre lastSpan heq hpre hlast
      cases pre with
      | nil =>
        simp only [List.nil_append, List.cons.injEq] at heq
        obtain ⟨h1, h2⟩ := heq
        subst h1
        subst h2
        unfold get_order_id
        rw [hlast]
        rfl
      | cons p ps =>
        simp only [List.cons_append, List.cons.injEq] at heq
        obtain ⟨h1, h2⟩ := heq
        subst h1
        have hp := hpre s (List.mem_cons_self s ps)
        unfold get_order_id
        rw [hp]
        simp only [Bool.false_eq_true, if_false]
        exact ih.2 ps lastSpan h2 (fun x hx => hpre x (List.mem_cons_of_mem s hx)) hlast

/-- C10 witness: a sequence with no `"Order #"` fragment yields the
sentinel, and a sequence whose only `"Order #"` fragment is last
raises. -/
theorem c10_witness :
    get_order_id ["Order placed", "June 1, 2022"] = .ok "unknown_order_id" ∧
    get_order_id ["Order placed", "Order #"] = .error .indexError := by
  constructor
  · exact (c10_order_id_resolution _).1 (by decide)
  · exact (c10_order_id_resolution _).2 ["Order placed"] "Order #" rfl (by decide) (by decide)

/-- C8: artifact path resolution is a pure deterministic function of
the extracted `(date, total, orderId)`: in any run over an order with
that record — whatever the filesystem and whatever the configured
methods do — the resolved path is the same, and it has the form
`<output-dir>/<ISO-date>_<total>_amazon_<orderId>.pdf`. -/
theorem c8_artifact_path (ctx : Ctx) (ms : List MethodSpec) (fs : List String)
    (spans : List String) (d : Date) (t oid : String)
    (hex : extractOrder spans = .ok (.record d t oid)) :
    (∃ res fs' evs, processOrder ctx ms fs spans = .ok (res, fs', evs) ∧
      evs.head? = some (.pathResolved (file_name ctx.target_dir (date_str d) t oid))) ∧
    file_name ctx.target_dir (date_str d) t oid =
      ctx.target_dir ++ "/" ++ date_str d ++ "_" ++ t ++ "_amazon_" ++ oid ++ ".pdf" := by
  refine ⟨?_, rfl⟩
  rw [processOrder_record ctx ms fs spans d t oid hex]
  by_cases h1 : Date.ltb ctx.end_date d = true
  · simp only [h1, if_true]
    exact ⟨_, _, _, rfl, rfl⟩
  · simp only [h1, Bool.false_eq_true, if_false]
    by_cases h2 : Date.ltb d ctx.start_date = true
    · simp only [h2, if_true]
      exact ⟨_, _, _, rfl, rfl⟩
    · simp only [h2, Bool.false_eq_true, if_false]
      by_cases h3 : fs.contains (file_name ctx.target_dir (date_str d) t oid) = true
      · simp only [h3, if_true]
        exact ⟨_, _, _, rfl, rfl⟩
      · simp only [h3, Bool.false_eq_true, if_false]
        exact ⟨_, _, _, rfl, rfl⟩

/-- C8 witness: the path resolved for a concrete order. -/
theorem c8_witness :
    ∃ res fs' evs,
      processOrder ⟨⟨2022, 1, 1⟩, ⟨2022, 12, 31⟩, "downloads"⟩ [] []
        ["Order placed", "June 1, 2022", "Total", "$10.00", "Shipped",
         "Order #", " 123-4567890-1234567 "] = .ok (res, fs', evs) ∧
      evs.head? = some (.pathResolved
        (file_name "downloads" (date_str ⟨2022, 6, 1⟩) "10.00" "123-4567890-1234567")) := by
  exact (c8_artifact_path ⟨⟨2022, 1, 1⟩, ⟨2022, 12, 31⟩, "downloads"⟩ [] [] _
    ⟨2022, 6, 1⟩ "10.00" "123-4567890-1234567" (by decide)).1

/-- C9 counterexample: in `download_invoice`, when the HTTP fetch of
the invoice link raises, the freshly opened secondary page is left
open and the error propagates — the page is NOT closed on every
outcome, contradicting the claim. -/
theorem c9_counterexample :
    download_invoice ⟨.ok (), .ok (), .ok "href", .error (), .ok ()⟩ =
      (.error (), [SurfEvent.opened]) ∧
    SurfEvent.closed ∉ [SurfEvent.opened] := by
  constructor
  · rfl
  · decide

/-- C9 (amended): every secondary page opened by `download_invoice`
or `download_summary` is closed before the method returns on every
NORMAL outcome (`SUCCESS`, `FAILURE`, `SKIPPED`); but when a step
raises after the page was opened (the fetch, the navigation, the load
wait, the body write or the PDF render), the method propagates the
error without closing the page. -/
theorem c9_amended_scoped_release (envI : InvoiceEnv) (envS : SummaryEnv) :
    (∀ o evs, download_invoice envI = (.ok o, evs) →
      evs = [SurfEvent.opened, SurfEvent.closed] ∨ evs = []) ∧
    (∀ e evs, download_invoice envI = (.error e, evs) → SurfEvent.closed ∉ evs) ∧
    (∀ o evs, download_summary envS = (.ok o, evs) →
      evs = [SurfEvent.opened, SurfEvent.closed] ∨ evs = []) ∧
    (∀ e evs, download_summary envS = (.error e, evs) → SurfEvent.closed ∉ evs) := by
  obtain ⟨ic, ip, ih, ig, iw⟩ := envI
  obtain ⟨sc, sp, sh, sg, sl, slf, spdf⟩ := envS
  refine ⟨?_, ?_, ?_, ?_⟩
  · intro o evs heq
    cases ic <;> cases ip <;> cases ih <;> cases ig <;> cases iw <;>
      simp only [download_invoice] at heq <;>
      first
        | (cases heq <;> decide)
        | (split at heq <;> (try simp_all) <;> (try subst heq) <;> (try decide))
        | simp_all
  · intro e evs heq
    cases ic <;> cases ip <;> cases ih <;> cases ig <;> cases iw <;>
      simp only [download_invoice] at heq <;>
      first
        | (cases heq <;> decide)
        | (split at heq <;> (try simp_all) <;> (try subst heq) <;> (try decide))
        | simp_all
  · intro o evs heq
    cases sc <;> cases sp <;> cases sh <;> cases sg <;> cases sl <;> cases spdf <;>
      simp only [download_summary] at heq <;>
      first
        | (cases heq <;> decide)
        | (split at heq <;> (try simp_all) <;> (try subst heq) <;> (try decide))
        | simp_all
  · intro e evs heq
    cases sc <;> cases sp <;> cases sh <;> cases sg <;> cases sl <;> cases spdf <;>
      simp only [download_summary] at heq <;>
      first
        | (cases heq <;> decide)
        | (split at heq <;> (try simp_all) <;> (try subst heq) <;> (try decide))
        | simp_all

/-- C9 witness: the amended theorem applied to a successful invoice
download and to a summary download whose render raises. -/
theorem c9_witness :
    (([SurfEvent.opened, SurfEvent.closed] : List SurfEvent) =
      [SurfEvent.opened, SurfEvent.closed] ∨
      ([SurfEvent.opened, SurfEvent.closed] : List SurfEvent) = []) ∧
    SurfEvent.closed ∉ [SurfEvent.opened] := by
  constructor
  · exact (c9_amended_scoped_release
      ⟨.ok (), .ok (), .ok "h", .ok ⟨true, some "application/pdf"⟩, .ok ()⟩
      ⟨.ok (), .ok (), .ok "h", .ok (), .ok (), "1234", .error ()⟩).1
      ret.SUCCESS _ (by decide)
  · exact (c9_amended_scoped_release
      ⟨.ok (), .ok (), .ok "h", .ok ⟨true, some "application/pdf"⟩, .ok ()⟩
      ⟨.ok (), .ok (), .ok "h", .ok (), .ok (), "1234", .error ()⟩).2.2.2
      () _ (by decide)

/-- C3 counterexample: the inverted range `20221231-20220101`
(start 2022-12-31, end 2022-01-01, so start > end) resolves
successfully instead of failing — the source has no start > end
check, so such an input does not fail before browser interaction. -/
theorem c3_counterexample :
    resolveDateWindow (.dateRange "20221231-20220101") =
      .ok (⟨2022, 12, 31⟩, ⟨2022, 1, 1⟩) ∧
    Date.ltb ⟨2022, 1, 1⟩ ⟨2022, 12, 31⟩ = true := by
  constructor
  · rfl
  · decide

/-- C3 (amended): date window resolution fails with a parse error
(`ValueError`) when the range does not split on `"-"` into exactly
two parts or when either part cannot be parsed as a `%Y%m%d` date;
when both parts parse, resolution always succeeds with exactly
`(start, end)` — including when start > end, which is never checked. -/
theorem c3_amended_window_resolution (s : String) :
    (∀ a b, pySplitOnChar s '-' = [a, b] →
      (∀ e, strptimeYmd a = .error e →
        resolveDateWindow (.dateRange s) = .error e) ∧
      (∀ da e, strptimeYmd a = .ok da → strptimeYmd b = .error e →
        resolveDateWindow (.dateRange s) = .error e) ∧
      (∀ da db, strptimeYmd a = .ok da → strptimeYmd b = .ok db →
        resolveDateWindow (.dateRange s) = .ok (da, db))) ∧
    ((pySplitOnChar s '-').length ≠ 2 →
      resolveDateWindow (.dateRange s) = .error .valueError) := by
  constructor
  · intro a b hsp
    refine ⟨?_, ?_, ?_⟩
    · intro e ha
      simp [resolveDateWindow, hsp, ha]
    · intro da e ha hb
      simp [resolveDateWindow, hsp, ha, hb]
    · intro da db ha hb
      simp [resolveDateWindow, hsp, ha, hb]
  · intro hlen
    cases hsp : pySplitOnChar s '-' with
    | nil => simp [resolveDateWindow, hsp]
    | cons x xs =>
      cases xs with
      | nil => simp [resolveDateWindow, hsp]
      | cons y ys =>
        cases ys with
        | nil => rw [hsp] at hlen; simp at hlen
        | cons z zs => simp [resolveDateWindow, hsp]

/-- C3 witness: a well-formed range resolves to its two dates; a
non-range string fails with a parse error. -/
theorem c3_witness :
    resolveDateWindow (.dateRange "20220101-20221231") =
      .ok (⟨2022, 1, 1⟩, ⟨2022, 12, 31⟩) ∧
    resolveDateWindow (.dateRange "garbage") = .error .valueError := by
  constructor
  · exact ((c3_amended_window_resolution _).1 "20220101" "20221231" (by decide)).2.2
      ⟨2022, 1, 1⟩ ⟨2022, 12, 31⟩ (by decide) (by decide)
  · exact (c3_amended_window_resolution _).2 (by decide)

/-- C6: an order entry whose status text (`spans[4]`) equals
`"cancelled"` case-insensitively is skipped before anything else
happens: the loop iteration produces an empty event trace (no path
resolved, no existence check, no method invocation), leaves the
filesystem unchanged, and processing moves to the next order. -/
theorem c6_cancelled_skipped (ctx : Ctx) (mFor : List String → List MethodSpec)
    (fs : List String) (spans : List String) (status : String)
    (rest : List (List String))
    (h4 : spans.get? 4 = some status)
    (hc : pyLower status = "cancelled") :
    processOrder ctx (mFor spans) fs spans = .ok (.nextOrder, fs, []) ∧
    runCards ctx mFor fs (spans :: rest) = bumpProcessed (runCards ctx mFor fs rest) := by
  have hstrip := pyStrip_of_pyLower_cancelled hc
  have h4' : spanIdx spans 4 = .ok status := by unfold spanIdx; rw [h4]
  have hex : extractOrder spans = .ok .cancelled := by
    unfold extractOrder
    rw [h4']
    simp only []
    rw [hstrip, hc]
    simp
  have hpo : processOrder ctx (mFor spans) fs spans = .ok (.nextOrder, fs, []) := by
    unfold processOrder
    rw [hex]
  exact ⟨hpo, runCards_cons_next rest hpo⟩

/-- C6 witness: a concrete cancelled order card. -/
theorem c6_witness :
    processOrder ⟨⟨2022, 1, 1⟩, ⟨2022, 12, 31⟩, "downloads"⟩
      ((fun _ => [Except.ok ret.SUCCESS]) ["a", "b", "c", "d", "CanCelled"]) []
      ["a", "b", "c", "d", "CanCelled"] = .ok (.nextOrder, [], []) ∧
    runCards ⟨⟨2022, 1, 1⟩, ⟨2022, 12, 31⟩, "downloads"⟩
      (fun _ => [Except.ok ret.SUCCESS]) [] [["a", "b", "c", "d", "CanCelled"]] =
      bumpProcessed (runCards ⟨⟨2022, 1, 1⟩, ⟨2022, 12, 31⟩, "downloads"⟩
        (fun _ => [Except.ok ret.SUCCESS]) [] []) := by
  exact c6_cancelled_skipped ⟨⟨2022, 1, 1⟩, ⟨2022, 12, 31⟩, "downloads"⟩
    (fun _ => [Except.ok ret.SUCCESS]) [] ["a", "b", "c", "d", "CanCelled"]
    "CanCelled" [] (by decide) (by decide)

/-- C7 counterexample: with year labels `["999", "1000"]` and the
window 0999-01-01 .. 1000-12-31 both labels qualify, but
`sort(reverse=True)` sorts the label STRINGS, so the output is
`["999", "1000"]`, whose numeric values ascend — the selected
sequence is not strictly descending by numeric year value. -/
theorem c7_counterexample :
    yearSelector ["999", "1000"] ⟨999, 1, 1⟩ ⟨1000, 12, 31⟩ = ["999", "1000"] ∧
    labelToNat "999" < labelToNat "1000" := by
  constructor
  · decide
  · decide

/-- C7 (amended): the selected year sequence contains exactly (as a
multiset) the numeric labels whose value lies in
`[start.year, end.year]` inclusive, and is sorted in non-increasing
LEXICOGRAPHIC string order — strictly decreasing when the input
labels are distinct.  (For distinct labels of equal length, such as
four-digit years, this coincides with numerically descending order,
but not for labels of different lengths.) -/
theorem c7_amended_year_selection (labels : List String) (sd ed : Date) :
    List.Perm (yearSelector labels sd ed)
      ((labels.filter isNumericLabel).filter
        (fun y => decide (sd.year ≤ labelToNat y ∧ labelToNat y ≤ ed.year))) ∧
    (yearSelector labels sd ed).Sorted (fun a b => b ≤ a) ∧
    (labels.Nodup → (yearSelector labels sd ed).Sorted (fun a b => b < a)) := by
  refine ⟨sortDescStr_perm _, sortDescStr_sorted _, ?_⟩
  intro hnd
  have hnd2 : ((labels.filter isNumericLabel).filter
      (fun y => decide (sd.year ≤ labelToNat y ∧ labelToNat y ≤ ed.year))).Nodup :=
    (hnd.filter _).filter _
  have hnd3 : (yearSelector labels sd ed).Nodup :=
    (List.Perm.nodup_iff (sortDescStr_perm _)).mpr hnd2
  have hs : (yearSelector labels sd ed).Sorted (fun a b => b ≤ a) :=
    sortDescStr_sorted _
  exact (hs.and hnd3).imp (fun h => lt_of_le_of_ne h.1 (Ne.symm h.2))

/-- C7 witness: the amended theorem at a concrete distinct label
list. -/
theorem c7_witness :
    List.Perm (yearSelector ["2023", "2022", "Archived"] ⟨2022, 1, 1⟩ ⟨2023, 12, 31⟩)
      (((["2023", "2022", "Archived"] : List String).filter isNumericLabel).filter
        (fun y => decide ((2022 : Nat) ≤ labelToNat y ∧ labelToNat y ≤ (2023 : Nat)))) ∧
    (yearSelector ["2023", "2022", "Archived"] ⟨2022, 1, 1⟩ ⟨2023, 12, 31⟩).Sorted
      (fun a b => b ≤ a) ∧
    (yearSelector ["2023", "2022", "Archived"] ⟨2022, 1, 1⟩ ⟨2023, 12, 31⟩).Sorted
      (fun a b => b < a) := by
  refine ⟨(c7_amended_year_selection _ _ _).1, (c7_amended_year_selection _ _ _).2.1,
    (c7_amended_year_selection _ _ _).2.2 (by decide)⟩

/-- C2: for every order whose artifact file does not already exist,
the order loop invokes the configured methods in configured order —
the event trace records one invocation of each of methods
`0 .. n-1` — stopping at the first method whose outcome is `SUCCESS`
or `SKIPPED` (so exactly `i + 1` invocations when the first breaking
method is at position `i` and all before it failed or raised: each
failing method is followed by exactly one invocation of the next,
never a retry); when the chain exhausts without success every method
was invoked once, no file is recorded, and no exception escapes the
order (`processOrder` returns `.ok`). -/
theorem c2_fallback_chain (ctx : Ctx) (mFor : List String → List MethodSpec)
    (fs : List String) (spans : List String) (d : Date) (t oid : String)
    (rest : List (List String))
    (hex : extractOrder spans = .ok (.record d t oid))
    (hgt : Date.ltb ctx.end_date d = false)
    (hlt : Date.ltb d ctx.start_date = false)
    (hnf : fs.contains (file_name ctx.target_dir (date_str d) t oid) = false) :
    (processOrder ctx (mFor spans) fs spans = .ok (.nextOrder,
        (if (runChain (mFor spans)).2 = .success
          then file_name ctx.target_dir (date_str d) t oid :: fs else fs),
        [.pathResolved (file_name ctx.target_dir (date_str d) t oid),
         .existenceChecked (file_name ctx.target_dir (date_str d) t oid) false] ++
          (List.range (runChain (mFor spans)).1).map Event.methodInvoked) ∧
      runCards ctx mFor fs (spans :: rest) = bumpProcessed (runCards ctx mFor
        (if (runChain (mFor spans)).2 = .success
          then file_name ctx.target_dir (date_str d) t oid :: fs else fs) rest)) ∧
    (∀ i r, (r = ret.SUCCESS ∨ r = ret.SKIPPED) →
      (∀ m ∈ (mFor spans).take i, fallsThrough m) →
      (mFor spans).get? i = some (.ok r) →
      runChain (mFor spans) = (i + 1, stopOf r)) ∧
    ((∀ m ∈ mFor spans, fallsThrough m) →
      runChain (mFor spans) = ((mFor spans).length, StopReason.exhausted)) := by
  have hpo : processOrder ctx (mFor spans) fs spans = .ok (.nextOrder,
      (if (runChain (mFor spans)).2 = .success
        then file_name ctx.target_dir (date_str d) t oid :: fs else fs),
      [.pathResolved (file_name ctx.target_dir (date_str d) t oid),
       .existenceChecked (file_name ctx.target_dir (date_str d) t oid) false] ++
        (List.range (runChain (mFor spans)).1).map Event.methodInvoked) := by
    have hnf' : file_name ctx.target_dir (date_str d) t oid ∉ fs := by
      simpa using hnf
    rw [processOrder_record ctx (mFor spans) fs spans d t oid hex]
    simp [hgt, hlt, hnf']
  exact ⟨⟨hpo, runCards_cons_next rest hpo⟩,
    fun i r hr hpre hi => runChain_stop_at r hr i (mFor spans) hpre hi,
    runChain_exhausted (mFor spans)⟩

/-- C2 witness: a chain whose first method fails, second raises and
third succeeds is invoked three times and stops with success; a chain
of one failing and one raising method is exhausted after exactly two
invocations and still returns normally. -/
theorem c2_witness :
    processOrder wCtx (wMethods wGood) [] wGood = .ok (.nextOrder,
      ["downloads/2022-06-01_10.00_amazon_123-4567890-1234567.pdf"],
      [.pathResolved "downloads/2022-06-01_10.00_amazon_123-4567890-1234567.pdf",
       .existenceChecked "downloads/2022-06-01_10.00_amazon_123-4567890-1234567.pdf" false,
       .methodInvoked 0, .methodInvoked 1, .methodInvoked 2]) ∧
    runChain (wMethods wGood) = (3, .success) ∧
    runChain (wRaise wGood) = (2, .exhausted) := by
  obtain ⟨⟨hpo, _⟩, hstop, _⟩ := c2_fallback_chain wCtx wMethods [] wGood
    ⟨2022, 6, 1⟩ "10.00" "123-4567890-1234567" [] (by decide) (by decide)
    (by decide) (by decide)
  refine ⟨?_, ?_, ?_⟩
  · rw [hpo]; decide
  · exact hstop 2 ret.SUCCESS (Or.inl rfl) (by decide) (by decide)
  · exact (c2_fallback_chain wCtx wRaise [] wGood ⟨2022, 6, 1⟩ "10.00"
      "123-4567890-1234567" [] (by decide) (by decide) (by decide) (by decide)).2.2
      (by decide)

/-- C4: for an order whose resolved artifact path already exists, the
order loop makes the existence check and then invokes NO acquisition
method (the trace has no invocation event and no content read), the
filesystem is unchanged, and processing moves to the next order. -/
theorem c4_idempotence_gate (ctx : Ctx) (mFor : List String → List MethodSpec)
    (fs : List String) (spans : List String) (d : Date) (t oid : String)
    (rest : List (List String))
    (hex : extractOrder spans = .ok (.record d t oid))
    (hgt : Date.ltb ctx.end_date d = false)
    (hlt : Date.ltb d ctx.start_date = false)
    (hf : fs.contains (file_name ctx.target_dir (date_str d) t oid) = true) :
    processOrder ctx (mFor spans) fs spans = .ok (.nextOrder, fs,
      [.pathResolved (file_name ctx.target_dir (date_str d) t oid),
       .existenceChecked (file_name ctx.target_dir (date_str d) t oid) true]) ∧
    runCards ctx mFor fs (spans :: rest) = bumpProcessed (runCards ctx mFor fs rest) := by
  have hpo : processOrder ctx (mFor spans) fs spans = .ok (.nextOrder, fs,
      [.pathResolved (file_name ctx.target_dir (date_str d) t oid),
       .existenceChecked (file_name ctx.target_dir (date_str d) t oid) true]) := by
    have hf' : file_name ctx.target_dir (date_str d) t oid ∈ fs := by
      simpa using hf
    rw [processOrder_record ctx (mFor spans) fs spans d t oid hex]
    simp [hgt, hlt, hf']
  exact ⟨hpo, runCards_cons_next rest hpo⟩

/-- C4 witness: pre-creating the resolved path suppresses all method
invocations for that order. -/
theorem c4_witness :
    processOrder wCtx (wMethods wGood)
      ["downloads/2022-06-01_10.00_amazon_123-4567890-1234567.pdf"] wGood =
      .ok (.nextOrder, ["downloads/2022-06-01_10.00_amazon_123-4567890-1234567.pdf"],
        [.pathResolved (file_name wCtx.target_dir (date_str ⟨2022, 6, 1⟩) "10.00"
          "123-4567890-1234567"),
         .existenceChecked (file_name wCtx.target_dir (date_str ⟨2022, 6, 1⟩) "10.00"
          "123-4567890-1234567") true]) ∧
    runCards wCtx wMethods
      ["downloads/2022-06-01_10.00_amazon_123-4567890-1234567.pdf"] [wGood] =
      bumpProcessed (runCards wCtx wMethods
        ["downloads/2022-06-01_10.00_amazon_123-4567890-1234567.pdf"] []) := by
  exact c4_idempotence_gate wCtx wMethods
    ["downloads/2022-06-01_10.00_amazon_123-4567890-1234567.pdf"] wGood
    ⟨2022, 6, 1⟩ "10.00" "123-4567890-1234567" [] (by decide) (by decide)
    (by decide) (by decide)

/-- C1 counterexample: an order whose date text does not parse makes
the whole run abort with the uncaught `ValueError` — the following
order card of the same page is never processed — contradicting the
claim that extraction errors are caught at the order level. -/
theorem c1_counterexample :
    runYears wCtx wMethods [] [[[wBad, wGood]]] = .error .valueError := by
  decide

/-- C1 (amended): errors raised during ACQUISITION are caught at the
order level: even if every configured method raises, the order
completes normally and the loop proceeds to the next order.  Errors
raised during EXTRACTION (unparseable date or total, missing spans)
are NOT caught: they propagate out of the order, page and year loops
and abort the run. -/
theorem c1_amended_error_containment (ctx : Ctx)
    (mFor : List String → List MethodSpec) (fs : List String)
    (spans : List String) (rest : List (List String)) :
    (∀ d t oid, extractOrder spans = .ok (.record d t oid) →
      Date.ltb ctx.end_date d = false → Date.ltb d ctx.start_date = false →
      fs.contains (file_name ctx.target_dir (date_str d) t oid) = false →
      (∀ m ∈ mFor spans, m = (Except.error () : MethodSpec)) →
      processOrder ctx (mFor spans) fs spans = .ok (.nextOrder, fs,
        [.pathResolved (file_name ctx.target_dir (date_str d) t oid),
         .existenceChecked (file_name ctx.target_dir (date_str d) t oid) false] ++
          (List.range (mFor spans).length).map Event.methodInvoked) ∧
      runCards ctx mFor fs (spans :: rest) = bumpProcessed (runCards ctx mFor fs rest)) ∧
    (∀ e, extractOrder spans = .error e →
      processOrder ctx (mFor spans) fs spans = .error e ∧
      runCards ctx mFor fs (spans :: rest) = .error e ∧
      ∀ ps ys, runYears ctx mFor fs (((spans :: rest) :: ps) :: ys) = .error e) := by
  constructor
  · intro d t oid hex hgt hlt hnf hall
    have hch : runChain (mFor spans) = ((mFor spans).length, .exhausted) :=
      runChain_exhausted (mFor spans) (fun m hm => Or.inr (hall m hm))
    have hpo : processOrder ctx (mFor spans) fs spans = .ok (.nextOrder, fs,
        [.pathResolved (file_name ctx.target_dir (date_str d) t oid),
         .existenceChecked (file_name ctx.target_dir (date_str d) t oid) false] ++
          (List.range (mFor spans).length).map Event.methodInvoked) := by
      have hnf' : file_name ctx.target_dir (date_str d) t oid ∉ fs := by
        simpa using hnf
      rw [processOrder_record ctx (mFor spans) fs spans d t oid hex]
      simp [hgt, hlt, hnf', hch]
    exact ⟨hpo, runCards_cons_next rest hpo⟩
  · intro e he
    have hpo : processOrder ctx (mFor spans) fs spans = .error e := by
      unfold processOrder
      rw [he]
    have hrc := runCards_cons_error rest hpo
    exact ⟨hpo, hrc, fun ps ys => runYears_cons_error ys (runPages_cons_error ps hrc)⟩

/-- C1 witness: a chain in which both methods raise still lets the
order complete and the loop continue, while an unparseable date
aborts the page, year and whole run. -/
theorem c1_witness :
    (processOrder wCtx (wRaise wGood) [] wGood = .ok (.nextOrder, [],
      [.pathResolved (file_name wCtx.target_dir (date_str ⟨2022, 6, 1⟩) "10.00"
        "123-4567890-1234567"),
       .existenceChecked (file_name wCtx.target_dir (date_str ⟨2022, 6, 1⟩) "10.00"
        "123-4567890-1234567") false] ++
        (List.range (wRaise wGood).length).map Event.methodInvoked) ∧
     runCards wCtx wRaise [] [wGood] = bumpProcessed (runCards wCtx wRaise [] [])) ∧
    (processOrder wCtx (wRaise wBad) [] wBad = .error .valueError ∧
     runCards wCtx wRaise [] [wBad] = .error .valueError ∧
     runYears wCtx wRaise [] [[[wBad]]] = .error .valueError) := by
  constructor
  · exact (c1_amended_error_containment wCtx wRaise [] wGood []).1
      ⟨2022, 6, 1⟩ "10.00" "123-4567890-1234567" (by decide) (by decide)
      (by decide) (by decide) (by decide)
  · have h := (c1_amended_error_containment wCtx wRaise [] wBad []).2
      .valueError (by decide)
    exact ⟨h.1, h.2.1, h.2.2 [] []⟩

/-- C5: within one year, an order dated after the window's end is
skipped and the order loop continues; the first order dated before
the window's start terminates the order loop (`done = true`, exactly
the orders up to it processed) and the page loop of that year (later
pages are not visited); and each year of a completed run produces
exactly the trace of its own standalone full traversal — early
termination in one year does not affect any other year. -/
theorem c5_descending_termination (ctx : Ctx)
    (mFor : List String → List MethodSpec) (fs : List String) :
    (∀ spans d t oid rest, extractOrder spans = .ok (.record d t oid) →
      Date.ltb ctx.end_date d = true →
      processOrder ctx (mFor spans) fs spans = .ok (.nextOrder, fs,
        [.pathResolved (file_name ctx.target_dir (date_str d) t oid)]) ∧
      runCards ctx mFor fs (spans :: rest) = bumpProcessed (runCards ctx mFor fs rest)) ∧
    (∀ spans d t oid rest, extractOrder spans = .ok (.record d t oid) →
      Date.ltb ctx.end_date d = false → Date.ltb d ctx.start_date = true →
      runCards ctx mFor fs (spans :: rest) = .ok (true, fs, 1)) ∧
    (∀ p ps fs' n, runCards ctx mFor fs p = .ok (true, fs', n) →
      runPages ctx mFor fs (p :: ps) = .ok (fs', [n])) ∧
    (∀ ys fsr ts, runYears ctx mFor fs ys = .ok (fsr, ts) →
      yearTraces ctx mFor ys = .ok ts) := by
  refine ⟨?_, ?_, ?_, ?_⟩
  · intro spans d t oid rest hex hgt
    have hpo : processOrder ctx (mFor spans) fs spans = .ok (.nextOrder, fs,
        [.pathResolved (file_name ctx.target_dir (date_str d) t oid)]) := by
      rw [processOrder_record ctx (mFor spans) fs spans d t oid hex]
      simp [hgt]
    exact ⟨hpo, runCards_cons_next rest hpo⟩
  · intro spans d t oid rest hex hgt hlt
    have hpo : processOrder ctx (mFor spans) fs spans = .ok (.endYear, fs,
        [.pathResolved (file_name ctx.target_dir (date_str d) t oid)]) := by
      rw [processOrder_record ctx (mFor spans) fs spans d t oid hex]
      simp [hgt, hlt]
    exact runCards_cons_end rest hpo
  · intro p ps fs' n h
    exact runPages_cons_done ps h
  · intro ys fsr ts h
    exact runYears_eq_yearTraces ctx mFor ys fs fsr ts h

/-- C5 witness: a 2023-dated order inside the 2022 window is skipped
with the loop continuing; a 2021-dated order terminates its year
after exactly one processed order and suppresses the year's later
pages; and in the two-year run the early-terminated year leaves the
other year's full standalone trace intact. -/
theorem c5_witness :
    (processOrder wCtx (wMethods wLate) [] wLate = .ok (.nextOrder, [],
      [.pathResolved (file_name wCtx.target_dir (date_str ⟨2023, 3, 1⟩) "8.00" "B")]) ∧
     runCards wCtx wMethods [] [wLate] = bumpProcessed (runCards wCtx wMethods [] [])) ∧
    runCards wCtx wMethods [] [wOld] = .ok (true, [], 1) ∧
    runPages wCtx wMethods [] [[wOld], [wGood]] = .ok ([], [1]) ∧
    yearTraces wCtx wMethods [[[wOld]], [[wLate]]] = .ok [[1], [1]] := by
  obtain ⟨h1, h2, h3, h4⟩ := c5_descending_termination wCtx wMethods []
  have hold : runCards wCtx wMethods [] [wOld] = .ok (true, [], 1) :=
    h2 wOld ⟨2021, 12, 20⟩ "5.00" "C" [] (by decide) (by decide) (by decide)
  refine ⟨h1 wLate ⟨2023, 3, 1⟩ "8.00" "B" [] (by decide) (by decide), hold,
    h3 [wOld] [[wGood]] [] 1 hold, h4 [[[wOld]], [[wLate]]] [] [[1], [1]] (by decide)⟩

end AmazonInvoiceDownloader
